import Mathlib

/-
Shallow embedding of src/trunk/multi_thread.c (pthread-lib), the
thread-pool lifecycle manager: pool creation and teardown, the
mutex-protected shared state (handle table, pool size, stop flag,
status array) and the timed-wait utilities.

The embedding translates each C function into a pure Lean function.
Environment effects are passed explicitly:
  - the result of gettimeofday is an `Except Int Timeval` (error code or
    the current time);
  - the result of pthread_cond_timedwait is an integer parameter; for a
    condition variable that is never signalled it is ETIMEDOUT when the
    deadline passes (POSIX);
  - malloc success or failure is a Bool, and the indeterminate contents
    malloc leaves in a fresh block is a function Nat -> Int;
  - pthread_create is modelled as drawing fresh, pairwise-distinct
    thread handles from a counter (live threads have distinct ids);
  - process termination via exit(code) is an `Except.error code` result.
C int arithmetic that can overflow is done modulo 2^32 with `toInt32`.
-/

namespace MultiThread

/-- Two-complement wrap of an integer into the 32-bit signed range,
as C `int` arithmetic behaves on common targets when it overflows. -/
def toInt32 (x : Int) : Int := (x + 2 ^ 31) % 2 ^ 32 - 2 ^ 31

/-- struct timeval, as filled in by gettimeofday. -/
structure Timeval where
  tv_sec : Int
  tv_usec : Int
deriving Repr, DecidableEq

/-- struct timespec, the absolute deadline handed to pthread_cond_timedwait. -/
structure Timespec where
  tv_sec : Int
  tv_nsec : Int
deriving Repr, DecidableEq

/-- The errno value pthread_cond_timedwait returns when the deadline passes
without the condition being signalled (POSIX guarantees it is nonzero;
110 is the Linux value). -/
def ETIMEDOUT : Int := 110

/-- Observable outcome of one timed-wait call: the int the C function
returns, the deadline it handed to pthread_cond_timedwait (none when the
call returned before computing one), whether gettimeofday was called, and
whether pthread_cond_timedwait was called. -/
structure TimedWaitRun where
  ret : Int
  deadline : Option Timespec
  clockRead : Bool
  waited : Bool
deriving Repr, DecidableEq

/-- timed_wait (multi_thread.c lines 191-232). `clock` is the gettimeofday
outcome, `condRc` the value pthread_cond_timedwait returns. The deadline is
tv_sec = now.tv_sec + wait_secs, tv_nsec = now.tv_usec * 1000. -/
def timed_wait (wait_secs : Int) (clock : Except Int Timeval) (condRc : Int) :
    TimedWaitRun :=
  match clock with
  | Except.error rc => ⟨rc, none, true, false⟩
  | Except.ok tp =>
      let ts : Timespec := ⟨tp.tv_sec + wait_secs, tp.tv_usec * 1000⟩
      ⟨condRc, some ts, true, true⟩

/-- timed_wait_milli (multi_thread.c lines 242-289). A non-positive duration
returns 0 before touching the clock. Otherwise wait_secs is multiplied by
1000000 in 32-bit int arithmetic and the deadline is tv_sec = now.tv_sec,
tv_nsec = now.tv_usec + wait_secs * 1000000, with no usec-to-nsec conversion
and no carry into tv_sec. -/
def timed_wait_milli (wait_secs : Int) (clock : Except Int Timeval)
    (condRc : Int) : TimedWaitRun :=
  if wait_secs ≤ 0 then ⟨0, none, false, false⟩
  else
    match clock with
    | Except.error rc => ⟨rc, none, true, false⟩
    | Except.ok tp =>
        let w := toInt32 (wait_secs * 1000000)
        let ts : Timespec := ⟨tp.tv_sec, tp.tv_usec + w⟩
        ⟨condRc, some ts, true, true⟩

/-- tv_nsec of the deadline a timed-wait run produced (0 when none). -/
def deadlineNsec (r : TimedWaitRun) : Int := (r.deadline.getD ⟨0, 0⟩).tv_nsec

/-- Modelled from the spec: `ERROR_CODE_MALLOC` is defined in util.h, which
is not part of the repository snapshot; the spec calls it "a distinct
non-zero exit status reserved for out-of-memory conditions". Any fixed
nonzero value serves; the proofs only use that it is nonzero. -/
def ERROR_CODE_MALLOC : Int := 3

/-- The process-wide shared state of multi_thread.c: the globals
thread_pool, pool_size, status_array, sizeof_status_array and thread_stop
(lines 35-49), plus a counter supplying the fresh thread ids that
pthread_create hands out. A `none` pool or array is a NULL pointer. -/
structure MTState where
  thread_pool : Option (List Nat)
  pool_size : Int
  status_array : Option (List Int)
  sizeof_status_array : Int
  thread_stop : Int
  next_handle : Nat
deriving Repr, DecidableEq

/-- The state at program start (lines 35-49): both pointers NULL,
pool_size initialised to 1, sizeof_status_array and thread_stop to 0. -/
def initState : MTState := ⟨none, 1, none, 0, 0, 0⟩

/-- create_threads (lines 83-112). Sets pool_size to num_threads, then
allocates the handle table; on malloc failure it exits with
ERROR_CODE_MALLOC before any thread is started. On success it resets
thread_stop to 0 and starts num_threads threads; each pthread_create
yields a fresh handle. The worker function and its parameter are opaque
to this layer and do not appear in the state. Returns the handle table. -/
def create_threads (num_threads : Int) (allocOk : Bool) (s : MTState) :
    Except Int (List Nat × MTState) :=
  let s1 := { s with pool_size := num_threads }
  if allocOk then
    let handles := (List.range num_threads.toNat).map (fun i => s.next_handle + i)
    Except.ok (handles,
      { s1 with
          thread_pool := some handles
          thread_stop := 0
          next_handle := s.next_handle + num_threads.toNat })
  else Except.error ERROR_CODE_MALLOC

/-- get_pool_size (lines 459-466): locked read of pool_size. -/
def get_pool_size (s : MTState) : Int := s.pool_size

/-- stop_threads (lines 411-415): sets thread_stop to 1 under the stop lock. -/
def stop_threads (s : MTState) : MTState := { s with thread_stop := 1 }

/-- should_stop (lines 427-435): locked read of thread_stop; the C caller
treats any nonzero value as true. -/
def should_stop (s : MTState) : Int := s.thread_stop

/-- set_stop (lines 448-452): sets thread_stop to the argument under the
stop lock. -/
def set_stop (stop : Int) (s : MTState) : MTState := { s with thread_stop := stop }

/-- create_status_array (lines 478-497). Under the status lock: frees the
old array, sets sizeof_status_array to pool_size, and mallocs a fresh
array of that many ints. malloc does not clear the block: the fresh
contents are the indeterminate values `junk`. On malloc failure the
process exits with ERROR_CODE_MALLOC. -/
def create_status_array (allocOk : Bool) (junk : Nat → Int) (s : MTState) :
    Except Int MTState :=
  let s1 := { s with sizeof_status_array := s.pool_size }
  if allocOk then
    Except.ok { s1 with
      status_array := some ((List.range s.pool_size.toNat).map junk) }
  else Except.error ERROR_CODE_MALLOC

/-- init_status_array (lines 508-520). If pool_size differs from
sizeof_status_array, delegates to create_status_array; otherwise memsets
every slot of the existing array to 0 in place. -/
def init_status_array (allocOk : Bool) (junk : Nat → Int) (s : MTState) :
    Except Int MTState :=
  if s.pool_size ≠ s.sizeof_status_array then
    create_status_array allocOk junk s
  else
    Except.ok { s with
      status_array := s.status_array.map (fun l => l.map (fun _ => 0)) }

/-- get_status_array (lines 529-537): locked read of the array pointer. -/
def get_status_array (s : MTState) : Option (List Int) := s.status_array

/-- set_status_element (lines 550-563). Under the status lock, the C code
checks only `index < sizeof_status_array` — there is no lower bound
check — writes status_array[index] and returns TRUE when the check
passes, FALSE otherwise. For a negative index the write lands outside
the array object (an out-of-bounds write, undefined behaviour in C);
the model keeps the array slots unchanged in that case but still
returns TRUE, exactly as the check dictates. -/
def set_status_element (index status : Int) (s : MTState) : Bool × MTState :=
  if index < s.sizeof_status_array then
    (true,
      { s with
          status_array := s.status_array.map (fun l =>
            if 0 ≤ index then l.set index.toNat status else l) })
  else (false, s)

/-- One observable event of a join_threads pass over worker index i:
either pthread_join was called on thread i, or the "Thread [i+1] is hung,
not joining" line was printed and the thread skipped. -/
inductive JoinEvent where
  | joined (i : Nat)
  | skippedHung (i : Nat)
deriving Repr, DecidableEq

/-- The worker index a join event concerns. -/
def JoinEvent.index : JoinEvent → Nat
  | JoinEvent.joined i => i
  | JoinEvent.skippedHung i => i

/-- What join_threads does for loop index i (lines 154-173): with a NULL
t_status it joins unconditionally; otherwise it joins exactly when
t_status[i] is nonzero and logs the thread as hung otherwise. -/
def joinStep (t_status : Option (List Int)) (i : Nat) : JoinEvent :=
  match t_status with
  | none => JoinEvent.joined i
  | some st => if st.getD i 0 ≠ 0 then JoinEvent.joined i else JoinEvent.skippedHung i

/-- join_threads (lines 142-181): the ordered list of join/skip events its
loop produces over indices 0..pool_size-1. After the loop the C code
frees the handle table and destroys the mutexes (modelled in applyOp). -/
def join_threads (t_status : Option (List Int)) (pool_size : Nat) :
    List JoinEvent :=
  (List.range pool_size).map (joinStep t_status)

/-- One invocation of an operation of the layer, together with the
environment inputs (malloc outcome, fresh-block contents, liveness array)
that invocation consumes. -/
inductive Op where
  | createOp (num_threads : Int) (allocOk : Bool)
  | joinOp (t_status : Option (List Int))
  | stopOp
  | setStopOp (v : Int)
  | getPoolSizeOp
  | shouldStopOp
  | createStatusOp (allocOk : Bool) (junk : Nat → Int)
  | initStatusOp (allocOk : Bool) (junk : Nat → Int)
  | getStatusOp
  | setStatusOp (index status : Int)

/-- Effect of one operation on the shared state; `Except.error code` is the
process exiting with that code. Reads leave the state unchanged; joinOp
frees the handle table after its join pass. -/
def applyOp (op : Op) (s : MTState) : Except Int MTState :=
  match op with
  | Op.createOp n allocOk => (create_threads n allocOk s).map (fun r => r.2)
  | Op.joinOp _ => Except.ok { s with thread_pool := none }
  | Op.stopOp => Except.ok (stop_threads s)
  | Op.setStopOp v => Except.ok (set_stop v s)
  | Op.getPoolSizeOp => Except.ok s
  | Op.shouldStopOp => Except.ok s
  | Op.createStatusOp allocOk junk => create_status_array allocOk junk s
  | Op.initStatusOp allocOk junk => init_status_array allocOk junk s
  | Op.getStatusOp => Except.ok s
  | Op.setStatusOp i v => Except.ok (set_status_element i v s).2

/-- Runs a sequence of operations, stopping if the process exits. -/
def runOps (ops : List Op) (s : MTState) : Except Int MTState :=
  match ops with
  | [] => Except.ok s
  | op :: rest =>
      match applyOp op s with
      | Except.ok t => runOps rest t
      | Except.error e => Except.error e

/-- Whether an operation writes 0 (false) into the stop flag: set_stop with
value 0, or create_threads, whose line 102 resets thread_stop to 0. -/
def resetsStop : Op → Bool
  | Op.setStopOp v => v == 0
  | Op.createOp _ _ => true
  | _ => false

/- ===================== helper lemmas ===================== -/

theorem toInt32_eq_self {x : Int} (h1 : -(2 ^ 31) ≤ x) (h2 : x < 2 ^ 31) :
    toInt32 x = x := by
  unfold toInt32
  omega

theorem joinStep_none (j : Nat) : joinStep none j = JoinEvent.joined j := rfl

theorem joinStep_some (st : List Int) (j : Nat) :
    joinStep (some st) j =
      if st.getD j 0 ≠ 0 then JoinEvent.joined j else JoinEvent.skippedHung j := rfl

theorem joinStep_index (t : Option (List Int)) (i : Nat) :
    (joinStep t i).index = i := by
  cases t with
  | none => rfl
  | some st =>
      rw [joinStep_some]
      by_cases h : st.getD i 0 ≠ 0
      · rw [if_pos h]; rfl
      · rw [if_neg h]; rfl

theorem joinStep_eq_joined (t : Option (List Int)) (j i : Nat) :
    joinStep t j = JoinEvent.joined i ↔
      j = i ∧ (t = none ∨ ∃ l, t = some l ∧ l.getD j 0 ≠ 0) := by
  cases t with
  | none =>
      rw [joinStep_none]
      constructor
      · intro h
        cases h
        exact ⟨rfl, Or.inl rfl⟩
      · rintro ⟨rfl, _⟩
        rfl
  | some st =>
      rw [joinStep_some]
      by_cases h : st.getD j 0 ≠ 0
      · rw [if_pos h]
        constructor
        · intro hj
          cases hj
          exact ⟨rfl, Or.inr ⟨st, rfl, h⟩⟩
        · rintro ⟨rfl, _⟩
          rfl
      · rw [if_neg h]
        constructor
        · intro hj
          exact JoinEvent.noConfusion hj
        · rintro ⟨rfl, hc⟩
          rcases hc with hc | ⟨l, hl, hne⟩
          · exact Option.noConfusion hc
          · cases hl
            exact absurd hne h

theorem joinStep_eq_skipped (t : Option (List Int)) (j i : Nat) :
    joinStep t j = JoinEvent.skippedHung i ↔
      j = i ∧ ∃ l, t = some l ∧ l.getD j 0 = 0 := by
  cases t with
  | none =>
      rw [joinStep_none]
      constructor
      · intro h
        exact JoinEvent.noConfusion h
      · rintro ⟨rfl, l, hl, _⟩
        exact Option.noConfusion hl
  | some st =>
      rw [joinStep_some]
      by_cases h : st.getD j 0 ≠ 0
      · rw [if_pos h]
        constructor
        · intro hj
          exact JoinEvent.noConfusion hj
        · rintro ⟨rfl, l, hl, h0⟩
          cases hl
          exact absurd h0 h
      · rw [if_neg h]
        constructor
        · intro hj
          cases hj
          exact ⟨rfl, st, rfl, not_not.mp h⟩
        · rintro ⟨rfl, _⟩
          rfl

theorem applyOp_thread_stop (op : Op) (s t : MTState)
    (hop : resetsStop op = false)
    (h : applyOp op s = Except.ok t) :
    t.thread_stop = s.thread_stop ∨ t.thread_stop ≠ 0 := by
  cases op with
  | createOp n a => simp [resetsStop] at hop
  | joinOp tst =>
      simp only [applyOp, Except.ok.injEq] at h
      subst h; left; rfl
  | stopOp =>
      simp only [applyOp, Except.ok.injEq] at h
      subst h; right; simp [stop_threads]
  | setStopOp v =>
      simp only [applyOp, Except.ok.injEq] at h
      subst h
      right
      simp only [resetsStop, beq_eq_false_iff_ne, ne_eq] at hop
      simpa [set_stop] using hop
  | getPoolSizeOp =>
      simp only [applyOp, Except.ok.injEq] at h; subst h; left; rfl
  | shouldStopOp =>
      simp only [applyOp, Except.ok.injEq] at h; subst h; left; rfl
  | getStatusOp =>
      simp only [applyOp, Except.ok.injEq] at h; subst h; left; rfl
  | createStatusOp a junk =>
      cases a with
      | false => simp [applyOp, create_status_array] at h
      | true =>
          simp only [applyOp, create_status_array, if_pos, Except.ok.injEq] at h
          subst h; left; rfl
  | initStatusOp a junk =>
      by_cases hps : s.pool_size = s.sizeof_status_array
      · simp only [applyOp, init_status_array, hps, ne_eq, not_true_eq_false,
          if_neg, ite_false, Except.ok.injEq, not_false_eq_true] at h
        subst h; left; rfl
      · cases a with
        | false => simp [applyOp, init_status_array, create_status_array, hps] at h
        | true =>
            simp only [applyOp, init_status_array, create_status_array, hps,
              ne_eq, not_false_eq_true, if_pos, ite_true, Except.ok.injEq] at h
            subst h; left; rfl
  | setStatusOp i v =>
      simp only [applyOp, Except.ok.injEq] at h
      subst h
      by_cases hlt : i < s.sizeof_status_array <;>
        simp [set_status_element, hlt]

theorem runOps_thread_stop (ops : List Op) :
    ∀ s s', (∀ op ∈ ops, resetsStop op = false) →
      s.thread_stop ≠ 0 → runOps ops s = Except.ok s' → s'.thread_stop ≠ 0 := by
  induction ops with
  | nil =>
      intro s s' _ hs h
      simp only [runOps, Except.ok.injEq] at h
      subst h; exact hs
  | cons op rest ih =>
      intro s s' hops hs h
      simp only [runOps] at h
      cases happ : applyOp op s with
      | error e => rw [happ] at h; exact absurd h (by simp)
      | ok t =>
          rw [happ] at h
          have hop : resetsStop op = false := hops op (by simp)
          have ht := applyOp_thread_stop op s t hop happ
          have htt : t.thread_stop ≠ 0 := by
            rcases ht with h1 | h1
            · rw [h1]; exact hs
            · exact h1
          exact ih t s' (fun o ho => hops o (by simp [ho])) htt h

/- ===================== unfolding equations ===================== -/

theorem create_threads_fail (n : Int) (s : MTState) :
    create_threads n false s = Except.error ERROR_CODE_MALLOC := rfl

theorem create_status_array_ok (junk : Nat → Int) (s : MTState) :
    create_status_array true junk s =
      Except.ok { s with
        sizeof_status_array := s.pool_size
        status_array := some ((List.range s.pool_size.toNat).map junk) } := rfl

theorem create_status_array_fail (junk : Nat → Int) (s : MTState) :
    create_status_array false junk s = Except.error ERROR_CODE_MALLOC := rfl

theorem init_status_array_same (allocOk : Bool) (junk : Nat → Int) (s : MTState)
    (heq : s.pool_size = s.sizeof_status_array) :
    init_status_array allocOk junk s =
      Except.ok { s with
        status_array := s.status_array.map (fun l => l.map (fun _ => 0)) } := by
  unfold init_status_array
  rw [if_neg (fun h => h heq)]

theorem init_status_array_resize (allocOk : Bool) (junk : Nat → Int) (s : MTState)
    (hne : s.pool_size ≠ s.sizeof_status_array) :
    init_status_array allocOk junk s = create_status_array allocOk junk s := by
  unfold init_status_array
  rw [if_pos hne]

/- ===================== the claims ===================== -/

/-- C1: the claim states that set_status_element(index, v) returns true iff
0 <= index < the status-array length, and that a false return leaves the
array unmodified. The code (line 555) checks only the upper bound, so at
index -1 against a length-4 array it performs an out-of-bounds write and
returns TRUE, where the claim requires false and no write. This theorem
evaluates the embedded code at that failing input. -/
theorem c1_set_status_element_negative_index :
    (set_status_element (-1) 5 ⟨none, 4, some [0, 0, 0, 0], 4, 0, 0⟩).1 = true ∧
    ¬ (0 ≤ (-1 : Int)) :=
  ⟨rfl, by decide⟩

/-- C2 counterexample: starting from the initial state (pool_size 1,
declared status length 0), init_status_array takes the reallocation path;
malloc does not clear the new block, so with allocator residue 7 the new
array is [7], not all zeros, contradicting the claim that a
changed-size reinit produces an array with every slot zero. -/
theorem c2_reinit_counterexample :
    init_status_array true (fun _ => 7) initState =
      Except.ok ⟨none, 1, some [7], 1, 0, 0⟩ ∧ (7 : Int) ≠ 0 :=
  ⟨rfl, by decide⟩

/-- C2 (amended): when the pool size equals the declared length,
init_status_array keeps the same array (same length) and zeroes every
slot in place; when it differs, it produces a new array whose length is
the new pool size but whose contents are the allocator residue, not
necessarily zero. -/
theorem c2_reinit_semantics (s : MTState) (junk : Nat → Int) :
    (s.pool_size = s.sizeof_status_array →
      ∀ l, s.status_array = some l →
        init_status_array true junk s =
          Except.ok { s with status_array := some (l.map (fun _ => 0)) } ∧
        (l.map (fun _ => (0 : Int))).length = l.length ∧
        ∀ x ∈ l.map (fun _ => (0 : Int)), x = 0) ∧
    (s.pool_size ≠ s.sizeof_status_array →
      init_status_array true junk s =
        Except.ok { s with
          sizeof_status_array := s.pool_size
          status_array := some ((List.range s.pool_size.toNat).map junk) } ∧
      ((List.range s.pool_size.toNat).map junk).length = s.pool_size.toNat) := by
  constructor
  · intro heq l hl
    refine ⟨?_, by simp, by simp⟩
    rw [init_status_array_same true junk s heq, hl]
    rfl
  · intro hne
    refine ⟨?_, by simp⟩
    rw [init_status_array_resize true junk s hne, create_status_array_ok]

/-- C2 witness: a same-size reinit on a pool of 2 with array [5, 6]
zeroes both slots in place. -/
theorem c2_reinit_semantics_witness :
    init_status_array true (fun _ => 9) ⟨none, 2, some [5, 6], 2, 0, 0⟩ =
      Except.ok ⟨none, 2, some [0, 0], 2, 0, 0⟩ ∧
    (([5, 6] : List Int).map (fun _ => (0 : Int))).length =
      ([5, 6] : List Int).length ∧
    (∀ x ∈ ([5, 6] : List Int).map (fun _ => (0 : Int)), x = 0) :=
  (c2_reinit_semantics ⟨none, 2, some [5, 6], 2, 0, 0⟩ (fun _ => 9)).1 rfl [5, 6] rfl

/-- C3 counterexample: with a working clock and the full duration
elapsing (the condition variable is never signalled, so
pthread_cond_timedwait yields ETIMEDOUT), timed_wait returns 110, a
nonzero error code — contradicting the claim that every case other than
a clock-read failure returns success. -/
theorem c3_timed_wait_counterexample :
    (timed_wait 5 (Except.ok ⟨0, 0⟩) ETIMEDOUT).ret = 110 ∧ (110 : Int) ≠ 0 :=
  ⟨rfl, by decide⟩

/-- C3 (amended): a timed-wait call returns the clock error when
gettimeofday fails; the millisecond variant returns 0 for a non-positive
duration; in every other case it returns the pthread_cond_timedwait
result, which in the normal case where the full duration elapses without
notification is ETIMEDOUT, a nonzero code — not success. -/
theorem c3_timed_wait_return_codes (n e condRc : Int) (tp : Timeval)
    (he : e ≠ 0) :
    (timed_wait n (Except.error e) condRc).ret = e ∧
    (timed_wait n (Except.error e) condRc).ret ≠ 0 ∧
    (timed_wait n (Except.ok tp) ETIMEDOUT).ret = ETIMEDOUT ∧
    ETIMEDOUT ≠ 0 ∧
    (0 < n → (timed_wait_milli n (Except.error e) condRc).ret = e) ∧
    (0 < n → (timed_wait_milli n (Except.ok tp) ETIMEDOUT).ret = ETIMEDOUT) ∧
    (n ≤ 0 → (timed_wait_milli n (Except.ok tp) condRc).ret = 0) := by
  refine ⟨rfl, he, rfl, by decide, ?_, ?_, ?_⟩
  · intro hn
    unfold timed_wait_milli
    rw [if_neg (by omega)]
  · intro hn
    unfold timed_wait_milli
    rw [if_neg (by omega)]
  · intro hn
    unfold timed_wait_milli
    rw [if_pos hn]

/-- C3 witness: the amended return-code contract at duration 5, clock
error -1, and a healthy clock at time 0. -/
theorem c3_timed_wait_return_codes_witness :
    (timed_wait 5 (Except.error (-1)) 110).ret = -1 ∧
    (timed_wait 5 (Except.error (-1)) 110).ret ≠ 0 ∧
    (timed_wait 5 (Except.ok ⟨0, 0⟩) ETIMEDOUT).ret = ETIMEDOUT ∧
    ETIMEDOUT ≠ 0 ∧
    (0 < (5 : Int) → (timed_wait_milli 5 (Except.error (-1)) 110).ret = -1) ∧
    (0 < (5 : Int) →
      (timed_wait_milli 5 (Except.ok ⟨0, 0⟩) ETIMEDOUT).ret = ETIMEDOUT) ∧
    ((5 : Int) ≤ 0 → (timed_wait_milli 5 (Except.ok ⟨0, 0⟩) 110).ret = 0) :=
  c3_timed_wait_return_codes 5 (-1) 110 ⟨0, 0⟩ (by decide)

/-- C4: join_threads visits workers in table order 0..n-1; worker i is
joined exactly when the liveness argument is absent or its i-th entry is
nonzero; with the argument present, an index whose entry is zero is never
joined and is logged as hung/skipped. -/
theorem c4_join_order_selectivity (n : Nat) (t : Option (List Int))
    (hlen : ∀ l, t = some l → l.length = n) :
    (join_threads t n).map JoinEvent.index = List.range n ∧
    ∀ i, i < n →
      ((JoinEvent.joined i ∈ join_threads t n) ↔
        (t = none ∨ ∃ l, t = some l ∧ l.getD i 0 ≠ 0)) ∧
      ((JoinEvent.skippedHung i ∈ join_threads t n) ↔
        (∃ l, t = some l ∧ l.getD i 0 = 0)) := by
  refine ⟨?_, ?_⟩
  · have hcomp : ∀ k, (JoinEvent.index ∘ joinStep t) k = id k := by
      intro k
      simp [Function.comp, joinStep_index]
    calc (join_threads t n).map JoinEvent.index
        = (List.range n).map (JoinEvent.index ∘ joinStep t) := by
          simp [join_threads, List.map_map]
      _ = (List.range n).map id := List.map_congr_left (fun a _ => hcomp a)
      _ = List.range n := List.map_id _
  · intro i hi
    constructor
    · constructor
      · intro hmem
        simp only [join_threads, List.mem_map, List.mem_range] at hmem
        obtain ⟨j, hj, hstep⟩ := hmem
        rw [joinStep_eq_joined] at hstep
        obtain ⟨rfl, hrest⟩ := hstep
        exact hrest
      · intro hr
        simp only [join_threads, List.mem_map, List.mem_range]
        refine ⟨i, hi, ?_⟩
        rw [joinStep_eq_joined]
        exact ⟨rfl, hr⟩
    · constructor
      · intro hmem
        simp only [join_threads, List.mem_map, List.mem_range] at hmem
        obtain ⟨j, hj, hstep⟩ := hmem
        rw [joinStep_eq_skipped] at hstep
        obtain ⟨rfl, hrest⟩ := hstep
        exact hrest
      · intro hr
        simp only [join_threads, List.mem_map, List.mem_range]
        refine ⟨i, hi, ?_⟩
        rw [joinStep_eq_skipped]
        exact ⟨rfl, hr⟩

/-- C4 witness: pool of 3 with liveness [1, 0, 2]; the pass is
[joined 0, skippedHung 1, joined 2]. -/
theorem c4_join_order_selectivity_witness :
    (join_threads (some [1, 0, 2]) 3).map JoinEvent.index = List.range 3 ∧
    ∀ i, i < 3 →
      ((JoinEvent.joined i ∈ join_threads (some [1, 0, 2]) 3) ↔
        ((some [1, 0, 2] : Option (List Int)) = none ∨
          ∃ l, (some [1, 0, 2] : Option (List Int)) = some l ∧ l.getD i 0 ≠ 0)) ∧
      ((JoinEvent.skippedHung i ∈ join_threads (some [1, 0, 2]) 3) ↔
        (∃ l, (some [1, 0, 2] : Option (List Int)) = some l ∧ l.getD i 0 = 0)) :=
  c4_join_order_selectivity 3 (some [1, 0, 2])
    (by intro l hl; cases hl; rfl)

/-- C5: a successful create_threads with n > 0 stores n as the pool size,
so get_pool_size returns n afterwards, and installs a handle table of
exactly n pairwise-distinct worker handles. -/
theorem c5_create_pool_size (n : Int) (s : MTState) (handles : List Nat)
    (s2 : MTState) (hn : 0 < n)
    (h : create_threads n true s = Except.ok (handles, s2)) :
    get_pool_size s2 = n ∧ s2.thread_pool = some handles ∧
    (handles.length : Int) = n ∧ handles.Nodup := by
  simp only [create_threads, if_true, Except.ok.injEq, Prod.mk.injEq] at h
  obtain ⟨h1, h2⟩ := h
  subst h1
  subst h2
  refine ⟨rfl, rfl, ?_, ?_⟩
  · simp only [List.length_map, List.length_range]
    omega
  · exact (List.nodup_range _).map (fun x y hxy => by omega)

/-- C5 witness: create_threads 3 on the initial state yields handle table
[0, 1, 2] and pool size 3. -/
theorem c5_create_pool_size_witness :
    get_pool_size ⟨some [0, 1, 2], 3, none, 0, 0, 3⟩ = 3 ∧
    (⟨some [0, 1, 2], 3, none, 0, 0, 3⟩ : MTState).thread_pool = some [0, 1, 2] ∧
    (([0, 1, 2] : List Nat).length : Int) = 3 ∧ ([0, 1, 2] : List Nat).Nodup :=
  c5_create_pool_size 3 initState [0, 1, 2] ⟨some [0, 1, 2], 3, none, 0, 0, 3⟩
    (by decide) rfl

/-- C6 counterexample: stop_threads sets the flag, but an intervening
create_threads (line 102) resets thread_stop to 0, so should_stop then
returns 0 (false) even though set_stop(false) was never called —
contradicting the claim that the flag survives any sequence of the
layer's other operations. -/
theorem c6_stop_counterexample :
    runOps [Op.createOp 2 true] (stop_threads initState) =
      Except.ok ⟨some [0, 1], 2, none, 0, 0, 2⟩ ∧
    should_stop ⟨some [0, 1], 2, none, 0, 0, 2⟩ = 0 :=
  ⟨rfl, rfl⟩

/-- C6 (amended): after stop_threads, should_stop keeps returning a
nonzero (true) value across any sequence of the layer's operations that
contains neither set_stop(0) nor a create_threads call (create resets the
stop flag to false as part of pool initialisation). -/
theorem c6_stop_visibility (s : MTState) (ops : List Op) (s2 : MTState)
    (hops : ∀ op ∈ ops, resetsStop op = false)
    (h : runOps ops (stop_threads s) = Except.ok s2) :
    should_stop s2 ≠ 0 :=
  runOps_thread_stop ops (stop_threads s) s2 hops (by simp [stop_threads]) h

/-- C6 witness: after stop, a set_stop(5), a join and a status write, the
flag still reads nonzero. -/
theorem c6_stop_visibility_witness :
    should_stop ⟨none, 1, none, 0, 5, 0⟩ ≠ 0 :=
  c6_stop_visibility initState [Op.setStopOp 5, Op.joinOp none, Op.setStatusOp 0 7]
    ⟨none, 1, none, 0, 5, 0⟩ (by decide) rfl

/-- C7: timed_wait_milli with a non-positive duration returns 0
immediately: no clock read, no wait, no deadline computed, and (being a
pure function of its inputs) no state change. -/
theorem c7_nonpositive_milli (n : Int) (clock : Except Int Timeval)
    (condRc : Int) (h : n ≤ 0) :
    timed_wait_milli n clock condRc = ⟨0, none, false, false⟩ := by
  unfold timed_wait_milli
  rw [if_pos h]

/-- C7 witness: duration 0 returns success with no clock read or wait. -/
theorem c7_nonpositive_milli_witness :
    (0 : Int) ≤ 0 ∧
    timed_wait_milli 0 (Except.ok ⟨0, 0⟩) ETIMEDOUT = ⟨0, none, false, false⟩ :=
  ⟨le_refl 0, c7_nonpositive_milli 0 (Except.ok ⟨0, 0⟩) ETIMEDOUT (le_refl 0)⟩

/-- C8: an allocation failure in create_threads or create_status_array
(directly or via init_status_array) is the only way an operation of the
layer terminates the process, and the exit code is the distinct nonzero
out-of-memory code ERROR_CODE_MALLOC; create_threads exits before
starting any thread, so no partial pool is left running; every other
operation completes and returns. -/
theorem c8_exit_policy (op : Op) (s : MTState) (code : Int) :
    (applyOp op s = Except.error code →
      code = ERROR_CODE_MALLOC ∧ code ≠ 0 ∧
      ((∃ n, op = Op.createOp n false) ∨ (∃ j, op = Op.createStatusOp false j) ∨
        (∃ j, op = Op.initStatusOp false j))) ∧
    (∀ n, op = Op.createOp n false →
      applyOp op s = Except.error ERROR_CODE_MALLOC ∧
      create_threads n false s = Except.error ERROR_CODE_MALLOC) ∧
    (∀ j, op = Op.createStatusOp false j →
      applyOp op s = Except.error ERROR_CODE_MALLOC) ∧
    (∀ j, op = Op.initStatusOp false j → s.pool_size ≠ s.sizeof_status_array →
      applyOp op s = Except.error ERROR_CODE_MALLOC) ∧
    ((∀ n, op ≠ Op.createOp n false) → (∀ j, op ≠ Op.createStatusOp false j) →
      (∀ j, op ≠ Op.initStatusOp false j) → ∃ t, applyOp op s = Except.ok t) := by
  cases op with
  | createOp n a =>
      cases a with
      | false =>
          refine ⟨?_, ?_, ?_, ?_, ?_⟩
          · intro h
            have he : Except.error (α := MTState) ERROR_CODE_MALLOC
                = Except.error code := h
            injection he with he
            subst he
            exact ⟨rfl, by decide, Or.inl ⟨n, rfl⟩⟩
          · intro n2 hop
            injection hop with h1 h2
            subst h1
            exact ⟨rfl, rfl⟩
          · intro j hop
            exact Op.noConfusion hop
          · intro j hop _
            exact Op.noConfusion hop
          · intro hc _ _
            exact absurd rfl (hc n)
      | true =>
          refine ⟨?_, ?_, ?_, ?_, ?_⟩
          · intro h
            exact Except.noConfusion h
          · intro n2 hop
            injection hop with _ h2
            exact Bool.noConfusion h2
          · intro j hop
            exact Op.noConfusion hop
          · intro j hop _
            exact Op.noConfusion hop
          · intro _ _ _
            exact ⟨_, rfl⟩
  | joinOp tst =>
      refine ⟨fun h => Except.noConfusion h, fun n hop => Op.noConfusion hop,
        fun j hop => Op.noConfusion hop, fun j hop _ => Op.noConfusion hop,
        fun _ _ _ => ⟨_, rfl⟩⟩
  | stopOp =>
      refine ⟨fun h => Except.noConfusion h, fun n hop => Op.noConfusion hop,
        fun j hop => Op.noConfusion hop, fun j hop _ => Op.noConfusion hop,
        fun _ _ _ => ⟨_, rfl⟩⟩
  | setStopOp v =>
      refine ⟨fun h => Except.noConfusion h, fun n hop => Op.noConfusion hop,
        fun j hop => Op.noConfusion hop, fun j hop _ => Op.noConfusion hop,
        fun _ _ _ => ⟨_, rfl⟩⟩
  | getPoolSizeOp =>
      refine ⟨fun h => Except.noConfusion h, fun n hop => Op.noConfusion hop,
        fun j hop => Op.noConfusion hop, fun j hop _ => Op.noConfusion hop,
        fun _ _ _ => ⟨_, rfl⟩⟩
  | shouldStopOp =>
      refine ⟨fun h => Except.noConfusion h, fun n hop => Op.noConfusion hop,
        fun j hop => Op.noConfusion hop, fun j hop _ => Op.noConfusion hop,
        fun _ _ _ => ⟨_, rfl⟩⟩
  | getStatusOp =>
      refine ⟨fun h => Except.noConfusion h, fun n hop => Op.noConfusion hop,
        fun j hop => Op.noConfusion hop, fun j hop _ => Op.noConfusion hop,
        fun _ _ _ => ⟨_, rfl⟩⟩
  | setStatusOp i v =>
      refine ⟨?_, fun n hop => Op.noConfusion hop,
        fun j hop => Op.noConfusion hop, fun j hop _ => Op.noConfusion hop,
        fun _ _ _ => ⟨_, rfl⟩⟩
      intro h
      exact Except.noConfusion h
  | createStatusOp a junk =>
      cases a with
      | false =>
          refine ⟨?_, ?_, ?_, ?_, ?_⟩
          · intro h
            have he : Except.error (α := MTState) ERROR_CODE_MALLOC
                = Except.error code := h
            injection he with he
            subst he
            exact ⟨rfl, by decide, Or.inr (Or.inl ⟨junk, rfl⟩)⟩
          · intro n hop
            exact Op.noConfusion hop
          · intro j hop
            injection hop with h1 h2
            subst h2
            rfl
          · intro j hop _
            exact Op.noConfusion hop
          · intro _ hc _
            exact absurd rfl (hc junk)
      | true =>
          refine ⟨?_, ?_, ?_, ?_, ?_⟩
          · intro h
            exact Except.noConfusion h
          · intro n hop
            exact Op.noConfusion hop
          · intro j hop
            injection hop with h1 h2
            exact Bool.noConfusion h1
          · intro j hop _
            exact Op.noConfusion hop
          · intro _ _ _
            exact ⟨_, rfl⟩
  | initStatusOp a junk =>
      cases a with
      | false =>
          refine ⟨?_, ?_, ?_, ?_, ?_⟩
          · intro h
            by_cases hps : s.pool_size = s.sizeof_status_array
            · rw [show applyOp (Op.initStatusOp false junk) s
                    = init_status_array false junk s from rfl,
                  init_status_array_same false junk s hps] at h
              exact Except.noConfusion h
            · rw [show applyOp (Op.initStatusOp false junk) s
                    = init_status_array false junk s from rfl,
                  init_status_array_resize false junk s hps,
                  create_status_array_fail] at h
              injection h with he
              subst he
              exact ⟨rfl, by decide, Or.inr (Or.inr ⟨junk, rfl⟩)⟩
          · intro n hop
            exact Op.noConfusion hop
          · intro j hop
            exact Op.noConfusion hop
          · intro j hop hps
            injection hop with h1 h2
            subst h2
            rw [show applyOp (Op.initStatusOp false junk) s
                  = init_status_array false junk s from rfl,
                init_status_array_resize false junk s hps,
                create_status_array_fail]
          · intro _ _ hc
            exact absurd rfl (hc junk)
      | true =>
          refine ⟨?_, ?_, ?_, ?_, ?_⟩
          · intro h
            by_cases hps : s.pool_size = s.sizeof_status_array
            · rw [show applyOp (Op.initStatusOp true junk) s
                    = init_status_array true junk s from rfl,
                  init_status_array_same true junk s hps] at h
              exact Except.noConfusion h
            · rw [show applyOp (Op.initStatusOp true junk) s
                    = init_status_array true junk s from rfl,
                  init_status_array_resize true junk s hps,
                  create_status_array_ok] at h
              exact Except.noConfusion h
          · intro n hop
            exact Op.noConfusion hop
          · intro j hop
            exact Op.noConfusion hop
          · intro j hop _
            injection hop with h1 h2
            exact Bool.noConfusion h1
          · intro _ _ _
            by_cases hps : s.pool_size = s.sizeof_status_array
            · exact ⟨_, init_status_array_same true junk s hps⟩
            · exact ⟨_, by
                rw [show applyOp (Op.initStatusOp true junk) s
                      = init_status_array true junk s from rfl,
                    init_status_array_resize true junk s hps,
                    create_status_array_ok]⟩

/-- C8 witness: a failed handle-table allocation in create_threads exits
with the out-of-memory code. -/
theorem c8_exit_policy_witness :
    applyOp (Op.createOp 2 false) initState = Except.error ERROR_CODE_MALLOC ∧
    create_threads 2 false initState = Except.error ERROR_CODE_MALLOC :=
  (c8_exit_policy (Op.createOp 2 false) initState ERROR_CODE_MALLOC).2.1 2 rfl

/-- C9 counterexample: at duration 1 millisecond the deadline tv_nsec is
now.tv_usec + 1000000, at most 1999999 for any valid microsecond value,
so it cannot exceed 999999999 — contradicting the claim that tv_nsec can
exceed 999999999 for every n >= 1. -/
theorem c9_deadline_counterexample :
    ¬ ∃ u : Int, 0 ≤ u ∧ u ≤ 999999 ∧
      999999999 < deadlineNsec (timed_wait_milli 1 (Except.ok ⟨0, u⟩) ETIMEDOUT) := by
  rintro ⟨u, h0, h1, h2⟩
  have hd : deadlineNsec (timed_wait_milli 1 (Except.ok ⟨0, u⟩) ETIMEDOUT)
      = u + toInt32 (1 * 1000000) := rfl
  rw [hd] at h2
  unfold toInt32 at h2
  omega

/-- C9 (amended): for n > 0 the wake-up deadline is tv_sec = now.tv_sec
and tv_nsec = now.tv_usec + n * 1000000, the product evaluated in 32-bit
signed arithmetic (it wraps for n >= 2148, e.g. at n = 2148), the current
microseconds are not converted to nanoseconds, and no carry into tv_sec
is performed; tv_nsec exceeds 999999999 whenever 1000 <= n <= 2147, but
cannot for 1 <= n <= 999. -/
theorem c9_milli_deadline (n condRc : Int) (tp : Timeval) (hn : 0 < n) :
    (timed_wait_milli n (Except.ok tp) condRc).deadline =
      some ⟨tp.tv_sec, tp.tv_usec + toInt32 (n * 1000000)⟩ ∧
    (n ≤ 2147 → toInt32 (n * 1000000) = n * 1000000) ∧
    (1000 ≤ n → n ≤ 2147 → 0 ≤ tp.tv_usec →
      999999999 < tp.tv_usec + toInt32 (n * 1000000)) ∧
    (n ≤ 999 → tp.tv_usec ≤ 999999 →
      tp.tv_usec + toInt32 (n * 1000000) ≤ 999999999) ∧
    toInt32 (2148 * 1000000) = 2148 * 1000000 - 2 ^ 32 := by
  have hw : n ≤ 2147 → toInt32 (n * 1000000) = n * 1000000 := by
    intro h2
    exact toInt32_eq_self (by omega) (by omega)
  refine ⟨?_, hw, ?_, ?_, ?_⟩
  · unfold timed_wait_milli
    rw [if_neg (by omega)]
  · intro ha hb hc
    rw [hw hb]
    omega
  · intro ha hb
    rw [hw (by omega)]
    omega
  · unfold toInt32
    omega

/-- C9 witness: at n = 1000 with now.tv_usec = 123 the deadline tv_nsec
is 1000000123, past the nanosecond range. -/
theorem c9_milli_deadline_witness :
    (timed_wait_milli 1000 (Except.ok ⟨0, 123⟩) ETIMEDOUT).deadline =
      some ⟨0, 123 + toInt32 (1000 * 1000000)⟩ ∧
    ((1000 : Int) ≤ 2147 → toInt32 (1000 * 1000000) = 1000 * 1000000) ∧
    ((1000 : Int) ≤ 1000 → (1000 : Int) ≤ 2147 → (0 : Int) ≤ 123 →
      999999999 < 123 + toInt32 (1000 * 1000000)) ∧
    ((1000 : Int) ≤ 999 → (123 : Int) ≤ 999999 →
      123 + toInt32 (1000 * 1000000) ≤ 999999999) ∧
    toInt32 (2148 * 1000000) = 2148 * 1000000 - 2 ^ 32 :=
  c9_milli_deadline 1000 ETIMEDOUT ⟨0, 123⟩ (by decide)

/-- C10: before any create_threads call, get_pool_size already returns 1
(the initial value of the pool_size global), although no pool and no
status array exist yet. -/
theorem c10_initial_pool_size :
    get_pool_size initState = 1 ∧ initState.thread_pool = none ∧
    initState.status_array = none :=
  ⟨rfl, rfl, rfl⟩

end MultiThread
